import Mathlib

/-!
Verification of `simple_file_logger` (src/src/lib.rs): a process-wide file
logging sink with two file-access strategies (keep-open vs transient),
env-derived filtering, and one-time global registration.

The Rust code is shallowly embedded: the filesystem is an association list
from paths to contents plus a set of "bad" paths where opens fail; the
global facade state (registered logger, max level) is an explicit `World`;
the system clock is an explicit `Option Nat` input (`none` models
`SystemTime::duration_since(UNIX_EPOCH)` returning `Err`, i.e. a clock
before the Unix epoch); a computation that can panic returns `Outcome`.
-/

namespace SimpleFileLogger

/-- The five `log::Level` severities. -/
inductive Level where
  | error | warn | info | debug | trace
deriving DecidableEq

/-- Rendering of `log::Level` via `Display`: the upper-case name. -/
def Level.toDisplay : Level → String
  | .error => "ERROR"
  | .warn => "WARN"
  | .info => "INFO"
  | .debug => "DEBUG"
  | .trace => "TRACE"

/-- Rust format spec `{: <n}` : left-align, pad with spaces to width `n`
(never truncates). -/
def padLeftAlign (w : Nat) (s : String) : String :=
  s ++ String.mk (List.replicate (w - s.length) ' ')

/-- Shape of `log::Metadata`: level and target. -/
structure Metadata where
  level : Level
  target : String
deriving DecidableEq

/-- Shape of `log::Record`: level, target and the formatted message payload
(`record.args()` rendered to a string). -/
structure Record where
  level : Level
  target : String
  args : String
deriving DecidableEq

/-- Metadata of a record, as `record.metadata()` returns it. -/
def Record.metadata (r : Record) : Metadata := ⟨r.level, r.target⟩

abbrev Path := String

/-- The external `log_filter_parse::Filters` collaborator, abstracted to its
contract: a pure predicate on metadata. -/
def Filters : Type := Metadata → Bool

/-- Predicate application, as `Filters::is_enabled(metadata)`. -/
def Filters.is_enabled (f : Filters) (m : Metadata) : Bool := f m

/-- Look up the first entry for `p` in an association list of file contents. -/
def lookupFile : List (Path × String) → Path → Option String
  | [], _ => none
  | (q, c) :: rest, p => if q = p then some c else lookupFile rest p

/-- Replace the first entry for `p` (or add one) in an association list. -/
def setFile : List (Path × String) → Path → String → List (Path × String)
  | [], p, s => [(p, s)]
  | (q, c) :: rest, p, s =>
      if q = p then (p, s) :: rest else (q, c) :: setFile rest p s

/-- Remove every entry for `p` from an association list. -/
def eraseFile : List (Path × String) → Path → List (Path × String)
  | [], _ => []
  | (q, c) :: rest, p =>
      if q = p then eraseFile rest p else (q, c) :: eraseFile rest p

/-- The filesystem: file contents by path, plus the set of paths on which
`open` fails (missing directory, permissions, ...). -/
structure Fs where
  files : List (Path × String)
  badPaths : List Path

/-- Content of the file at `p`, if it exists. -/
def Fs.lookup (fs : Fs) (p : Path) : Option String := lookupFile fs.files p

/-- Set the content of the file at `p`. -/
def Fs.set (fs : Fs) (p : Path) (s : String) : Fs :=
  { fs with files := setFile fs.files p s }

/-- Effect of `std::fs::remove_file(p)` on the filesystem (a no-op when the
file is absent; the caller in `truncate_transient` discards the error). -/
def Fs.erase (fs : Fs) (p : Path) : Fs :=
  { fs with files := eraseFile fs.files p }

/-- I/O error kinds the model distinguishes. -/
inductive IoError where
  | notFound | badPath | notWritable
deriving DecidableEq

/-- An open file handle: the path it refers to and whether it was opened
with write access. -/
structure Handle where
  path : Path
  writable : Bool
deriving DecidableEq

/-- Model of `std::fs::File::open(p)`: read-only open of an existing file;
fails if the path is bad or the file does not exist. The resulting handle is
NOT writable. -/
def openRead (fs : Fs) (p : Path) : Except IoError Handle :=
  if fs.badPaths.contains p then .error .badPath
  else match fs.lookup p with
    | some _ => .ok ⟨p, false⟩
    | none => .error .notFound

/-- Model of `OpenOptions::new().write(true).create(true).append(true).open(p)`:
creates the file (empty) if absent; fails on bad paths; the handle is
writable and in append mode. -/
def openAppend (fs : Fs) (p : Path) : Except IoError (Handle × Fs) :=
  if fs.badPaths.contains p then .error .badPath
  else match fs.lookup p with
    | some _ => .ok (⟨p, true⟩, fs)
    | none => .ok (⟨p, true⟩, fs.set p "")

/-- Model of writing `s` through a handle: appends to the file's current
content when the handle is writable, fails (EBADF) on a read-only handle. -/
def writeHandle (fs : Fs) (h : Handle) (s : String) : Except IoError Fs :=
  if h.writable then
    .ok (fs.set h.path (((fs.lookup h.path).getD "") ++ s))
  else .error .notWritable

/-- Model of `File::flush` (`Write::flush` for `std::fs::File` performs no
userspace buffering): succeeds without changing the filesystem. -/
def fileFlush (fs : Fs) (_h : Handle) : Except IoError Fs := .ok fs

/-- Value produced by `timestamp()` on a clock reading of `millis`
milliseconds since the Unix epoch: `as_millis() as u64` truncates `u128`
to 64 bits. -/
def timestampOf (millis : Nat) : Nat := millis % 2 ^ 64

/-- The file-access strategy, `enum Kind`. -/
inductive Kind where
  | keepOpen : Handle → Kind
  | transient : Path → Kind
deriving DecidableEq

/-- The sink itself, `struct FileLogger`. -/
structure FileLogger where
  kind : Kind
  filters : Filters

/-- The line built by `write_fmt` in `FileLogger::print`:
`[` level left-padded to width 5 `] ` timestamp ` [` target `] ` payload,
with no trailing newline. -/
def formatLine (level : Level) (ts : Nat) (target payload : String) : String :=
  "[" ++ padLeftAlign 5 level.toDisplay ++ "] " ++ Nat.repr ts
    ++ " [" ++ target ++ "] " ++ payload

/-- Result of a computation that may panic (the `unwrap` in `timestamp`). -/
inductive Outcome (α : Type) where
  | ok : α → Outcome α
  | panic
deriving DecidableEq

/-- The tail of `FileLogger::print` once a writer is resolved: evaluate the
format arguments (calling `timestamp()`, which unwraps the clock and panics
on a pre-epoch reading), then `let _ = write.write_fmt(...)` — the write
error is discarded. -/
def writeRecord (h : Handle) (r : Record) (clock : Option Nat) (fs : Fs) :
    Outcome Fs :=
  match clock with
  | none => .panic
  | some t =>
      match writeHandle fs h (formatLine r.level (timestampOf t) r.target r.args) with
      | .ok fs' => .ok fs'
      | .error _ => .ok fs

/-- Body of `FileLogger::print`: resolve a writer from the strategy (`KeepOpen`
uses the held handle; `Transient` opens the path write/create/append and
returns silently if the open fails), then write the formatted line. -/
def FileLogger.print (l : FileLogger) (r : Record) (clock : Option Nat)
    (fs : Fs) : Outcome Fs :=
  match l.kind with
  | .keepOpen h => writeRecord h r clock fs
  | .transient p =>
      match openAppend fs p with
      | .ok (h, fs') => writeRecord h r clock fs'
      | .error _ => .ok fs

/-- Implementation of `Log::enabled` for `FileLogger`: delegates to the
filters. -/
def FileLogger.enabled (l : FileLogger) (m : Metadata) : Bool :=
  l.filters.is_enabled m

/-- Implementation of `Log::log` for `FileLogger`: re-check `enabled` and
print. -/
def FileLogger.log (l : FileLogger) (r : Record) (clock : Option Nat)
    (fs : Fs) : Outcome Fs :=
  if l.enabled r.metadata then l.print r clock fs else .ok fs

/-- Implementation of `Log::flush` for `FileLogger`: flush the held handle (discarding the
result) when the strategy is `KeepOpen`; nothing otherwise. -/
def FileLogger.flush (l : FileLogger) (fs : Fs) : Fs :=
  match l.kind with
  | .keepOpen h =>
      match fileFlush fs h with
      | .ok fs' => fs'
      | .error _ => fs
  | .transient _ => fs

/-- The facade level filter, `log::LevelFilter`. -/
inductive LevelFilter where
  | off | error | warn | info | debug | trace
deriving DecidableEq

/-- Process-wide state: the filesystem, the facade's registration slot and
max level, and the environment-derived filter configuration
(`log_filter_parse::Filters::from_env()`). -/
structure World where
  fs : Fs
  logger : Option FileLogger
  maxLevel : LevelFilter
  envFilters : Filters

/-- Errors a setup entry point can return. -/
inductive SetupError where
  | alreadyRegistered
  | io : IoError → SetupError
deriving DecidableEq

/-- Effect of `log::set_max_level`. -/
def set_max_level (lf : LevelFilter) (w : World) : World :=
  { w with maxLevel := lf }

/-- Effect of `log::set_boxed_logger`: the facade's one-shot registration slot; fails
when a logger is already registered, leaving it in place. -/
def set_boxed_logger (l : FileLogger) (w : World) :
    World × Except SetupError Unit :=
  match w.logger with
  | some _ => (w, .error .alreadyRegistered)
  | none => ({ w with logger := some l }, .ok ())

/-- Body of `init(kind, filters)`: set the facade max level to `Trace`, then attempt
registration, propagating its error. -/
def init (kind : Kind) (filters : Filters) (w : World) :
    World × Except SetupError Unit :=
  set_boxed_logger ⟨kind, filters⟩ (set_max_level .trace w)

/-- Entry point `append_transient(path)`. -/
def append_transient (p : Path) (w : World) : World × Except SetupError Unit :=
  init (.transient p) w.envFilters w

/-- Entry point `truncate_transient(path)`: `let _ = std::fs::remove_file(path)` then
`init` with the transient strategy. -/
def truncate_transient (p : Path) (w : World) :
    World × Except SetupError Unit :=
  init (.transient p) w.envFilters { w with fs := w.fs.erase p }

/-- Entry point `append(path)`: `Kind::KeepOpen(std::fs::File::open(path)?)` — the `?`
propagates the open error before `init` runs. -/
def append (p : Path) (w : World) : World × Except SetupError Unit :=
  match openRead w.fs p with
  | .error e => (w, .error (.io e))
  | .ok h => init (.keepOpen h) w.envFilters w

/-- Entry point `truncate(path)`: same body as `append` (it uses `File::open`, not a
truncating open). -/
def truncate (p : Path) (w : World) : World × Except SetupError Unit :=
  match openRead w.fs p with
  | .error e => (w, .error (.io e))
  | .ok h => init (.keepOpen h) w.envFilters w

/-! ### Helper lemmas about the association-list filesystem -/

theorem lookupFile_setFile_self (l : List (Path × String)) (p : Path)
    (s : String) : lookupFile (setFile l p s) p = some s := by
  induction l with
  | nil => simp [setFile, lookupFile]
  | cons hd tl ih =>
      obtain ⟨q, c⟩ := hd
      by_cases h : q = p
      · simp [setFile, h, lookupFile]
      · simp [setFile, h, lookupFile, ih]

theorem lookupFile_setFile_ne (l : List (Path × String)) (p q : Path)
    (s : String) (h : q ≠ p) : lookupFile (setFile l p s) q = lookupFile l q := by
  induction l with
  | nil =>
      simp only [setFile, lookupFile]
      rw [if_neg (Ne.symm h)]
  | cons hd tl ih =>
      obtain ⟨a, c⟩ := hd
      by_cases ha : a = p
      · subst ha
        simp only [setFile, if_pos rfl, lookupFile]
        rw [if_neg (Ne.symm h), if_neg (Ne.symm h)]
      · simp only [setFile, if_neg ha, lookupFile]
        by_cases haq : a = q
        · rw [if_pos haq, if_pos haq]
        · rw [if_neg haq, if_neg haq]
          exact ih

theorem lookupFile_eraseFile_self (l : List (Path × String)) (p : Path) :
    lookupFile (eraseFile l p) p = none := by
  induction l with
  | nil => simp [eraseFile, lookupFile]
  | cons hd tl ih =>
      obtain ⟨q, c⟩ := hd
      by_cases h : q = p
      · simp [eraseFile, h, ih]
      · simp [eraseFile, h, lookupFile, ih]

theorem lookupFile_eraseFile_ne (l : List (Path × String)) (p q : Path)
    (h : q ≠ p) : lookupFile (eraseFile l p) q = lookupFile l q := by
  induction l with
  | nil => simp [eraseFile]
  | cons hd tl ih =>
      obtain ⟨a, c⟩ := hd
      by_cases ha : a = p
      · subst ha
        simp only [eraseFile, if_pos rfl, lookupFile]
        rw [if_neg (Ne.symm h)]
        exact ih
      · simp only [eraseFile, if_neg ha, lookupFile]
        by_cases haq : a = q
        · rw [if_pos haq, if_pos haq]
        · rw [if_neg haq, if_neg haq]
          exact ih

theorem Fs.lookup_set_self (fs : Fs) (p : Path) (s : String) :
    (fs.set p s).lookup p = some s :=
  lookupFile_setFile_self fs.files p s

theorem Fs.lookup_set_ne (fs : Fs) (p q : Path) (s : String) (h : q ≠ p) :
    (fs.set p s).lookup q = fs.lookup q :=
  lookupFile_setFile_ne fs.files p q s h

theorem Fs.lookup_erase_self (fs : Fs) (p : Path) :
    (fs.erase p).lookup p = none :=
  lookupFile_eraseFile_self fs.files p

/-! ### Concrete fixtures used by witnesses and counterexamples -/

/-- A world with one file `log` containing `OLD`, no registered logger. -/
def freshWorld : World :=
  ⟨⟨[("log", "OLD")], []⟩, none, .off, fun _ => true⟩

/-- A world with one file `log` containing `OLD` and a logger already
registered. -/
def regWorld : World :=
  ⟨⟨[("log", "OLD")], []⟩, some ⟨.transient "x", fun _ => true⟩, .off,
    fun _ => true⟩

/-- An INFO record with target `app::mod` and payload `hello`. -/
def helloRecord : Record := ⟨.info, "app::mod", "hello"⟩

/-- Auxiliary: with a post-epoch clock, the write step always returns `ok`
(the write error, if any, is discarded by `let _ =`). -/
theorem writeRecord_some_isOk (hd : Handle) (r : Record) (t : Nat) (fs : Fs) :
    ∃ fs', writeRecord hd r (some t) fs = .ok fs' := by
  cases hw : writeHandle fs hd (formatLine r.level (timestampOf t) r.target r.args) with
  | ok fs1 => exact ⟨fs1, by simp [writeRecord, hw]⟩
  | error e => exact ⟨fs, by simp [writeRecord, hw]⟩

/-- C2: a record whose metadata the filters report as not enabled makes
`log` a no-op — no open, no write, the filesystem is returned unchanged
byte-for-byte. -/
theorem log_disabled_is_noop (l : FileLogger) (r : Record) (clock : Option Nat)
    (fs : Fs) (h : l.enabled r.metadata = false) :
    l.log r clock fs = .ok fs := by
  simp [FileLogger.log, h]

/-- Witness for C2 at a concrete disabled record. -/
theorem log_disabled_is_noop_witness :
    FileLogger.log ⟨.transient "log", fun _ => false⟩ helloRecord (some 5)
      ⟨[("log", "OLD")], []⟩ = .ok ⟨[("log", "OLD")], []⟩ :=
  log_disabled_is_noop ⟨.transient "log", fun _ => false⟩ helloRecord (some 5)
    ⟨[("log", "OLD")], []⟩ rfl

/-- C3 (code bug): `append` succeeds and installs a `KeepOpen` handle, but
the handle comes from `File::open`, which opens READ-ONLY — so a later
enabled `log` call writes nothing: the write to the held handle fails and
is discarded, leaving the file unchanged, contradicting the claim (and the
doc comment on `append` itself, which promises appending). -/
theorem append_opens_read_only_handle_so_writes_are_lost :
    (append "log" freshWorld).2 = .ok () ∧
    ((append "log" freshWorld).1.logger.map FileLogger.kind) =
      some (.keepOpen ⟨"log", false⟩) ∧
    FileLogger.log ⟨.keepOpen ⟨"log", false⟩, fun _ => true⟩ helloRecord
      (some 1234) ⟨[("log", "OLD")], []⟩ = .ok ⟨[("log", "OLD")], []⟩ :=
  ⟨rfl, rfl, rfl⟩

/-- C4: `truncate` is literally the same operation as `append` — same open
call, same semantics — and in particular it never truncates: the filesystem
is unchanged by the call. -/
theorem truncate_behaves_exactly_as_append (p : Path) (w : World) :
    truncate p w = append p w ∧ (truncate p w).1.fs = w.fs := by
  refine ⟨rfl, ?_⟩
  obtain ⟨fs, lg, ml, ef⟩ := w
  cases h : openRead fs p with
  | error e => simp [truncate, h]
  | ok hd =>
      cases lg <;> simp [truncate, h, init, set_boxed_logger, set_max_level]

/-- C6 (counterexample): `log` can panic — `timestamp()` unwraps
`SystemTime::duration_since(UNIX_EPOCH)`, so a clock reading before the
Unix epoch (clock = `none`) panics on an enabled record instead of being
swallowed. -/
theorem log_panics_when_clock_precedes_epoch :
    FileLogger.log ⟨.transient "log", fun _ => true⟩ helloRecord none
      ⟨[], []⟩ = .panic := rfl

/-- C6 (amended): with a clock at or after the Unix epoch, `log` never
errors or panics for any record and strategy: a transient open failure
abandons that single write silently with the filesystem untouched, and a
failed write through a non-writable kept-open handle is swallowed likewise. -/
theorem log_is_best_effort_after_epoch (l : FileLogger) (r : Record) (t : Nat)
    (fs : Fs) :
    (∃ fs', l.log r (some t) fs = .ok fs') ∧
    (∀ p, l.kind = .transient p → fs.badPaths.contains p = true →
      l.log r (some t) fs = .ok fs) ∧
    (∀ hd, l.kind = .keepOpen hd → hd.writable = false →
      l.log r (some t) fs = .ok fs) := by
  obtain ⟨k, f⟩ := l
  refine ⟨?_, ?_, ?_⟩
  · by_cases he : (FileLogger.mk k f).enabled r.metadata = true
    case neg => exact ⟨fs, by simp [FileLogger.log, he]⟩
    case pos =>
      cases k with
      | keepOpen hd =>
          obtain ⟨fs', hfs'⟩ := writeRecord_some_isOk hd r t fs
          exact ⟨fs', by simp [FileLogger.log, he, FileLogger.print, hfs']⟩
      | transient p =>
          cases ho : openAppend fs p with
          | ok pr =>
              obtain ⟨hd, fs1⟩ := pr
              obtain ⟨fs', hfs'⟩ := writeRecord_some_isOk hd r t fs1
              exact ⟨fs', by
                simp [FileLogger.log, he, FileLogger.print, ho, hfs']⟩
          | error e =>
              exact ⟨fs, by simp [FileLogger.log, he, FileLogger.print, ho]⟩
  · intro p hk hbad
    change k = Kind.transient p at hk
    subst hk
    have ho : openAppend fs p = .error .badPath := by
      unfold openAppend
      rw [if_pos hbad]
    by_cases he : (FileLogger.mk (Kind.transient p) f).enabled r.metadata = true <;>
      simp [FileLogger.log, he, FileLogger.print, ho]
  · intro hd hk hw
    change k = Kind.keepOpen hd at hk
    subst hk
    have hwr : writeHandle fs hd
        (formatLine r.level (timestampOf t) r.target r.args) =
        .error .notWritable := by
      simp [writeHandle, hw]
    by_cases he : (FileLogger.mk (Kind.keepOpen hd) f).enabled r.metadata = true <;>
      simp [FileLogger.log, he, FileLogger.print, writeRecord, hwr]

/-- Witness for the amended C6: a transient open failure on a bad path is
swallowed and leaves the filesystem unchanged. -/
theorem log_is_best_effort_after_epoch_witness :
    FileLogger.log ⟨.transient "bad", fun _ => true⟩ helloRecord (some 3)
      ⟨[], ["bad"]⟩ = .ok ⟨[], ["bad"]⟩ :=
  (log_is_best_effort_after_epoch ⟨.transient "bad", fun _ => true⟩
    helloRecord 3 ⟨[], ["bad"]⟩).2.1 "bad" rfl rfl

/-- Auxiliary: on a good path holding an existing file, the transient open
returns a writable append handle and leaves the filesystem unchanged. -/
theorem openAppend_of_found (fs : Fs) (p : Path) (old : String)
    (hbad : fs.badPaths.contains p = false) (hlk : fs.lookup p = some old) :
    openAppend fs p = .ok (⟨p, true⟩, fs) := by
  unfold openAppend
  rw [if_neg (show ¬ fs.badPaths.contains p = true by
    rw [hbad]; exact Bool.false_ne_true), hlk]

/-- Auxiliary: on a good path with no file, the transient open creates an
empty file and returns a writable append handle. -/
theorem openAppend_of_missing (fs : Fs) (p : Path)
    (hbad : fs.badPaths.contains p = false) (hlk : fs.lookup p = none) :
    openAppend fs p = .ok (⟨p, true⟩, fs.set p "") := by
  unfold openAppend
  rw [if_neg (show ¬ fs.badPaths.contains p = true by
    rw [hbad]; exact Bool.false_ne_true), hlk]

/-- Auxiliary: writing through a writable handle appends to the current
content. -/
theorem writeHandle_writable (fs : Fs) (p : Path) (s : String) :
    writeHandle fs ⟨p, true⟩ s =
      .ok (fs.set p (((fs.lookup p).getD "") ++ s)) := rfl

/-- C1: an enabled record logged through the transient strategy (on a path
whose open succeeds) appends exactly one formatted line — the file at the
path gains exactly `formatLine`, every other file is untouched — and the
line has exactly the shape `[LEVEL] ts [target] payload` with the level
left-padded to width 5 and no trailing newline: at level INFO the line is
literally `"[INFO ] " ++ ts ++ " [" ++ target ++ "] " ++ payload`. -/
theorem transient_log_appends_exactly_one_formatted_line
    (p : Path) (f : Filters) (r : Record) (t : Nat) (fs : Fs)
    (hen : Filters.is_enabled f r.metadata = true)
    (hbad : fs.badPaths.contains p = false) :
    (∃ fs', FileLogger.log ⟨.transient p, f⟩ r (some t) fs = .ok fs' ∧
      fs'.lookup p = some ((fs.lookup p).getD "" ++
        formatLine r.level (timestampOf t) r.target r.args) ∧
      ∀ q, q ≠ p → fs'.lookup q = fs.lookup q) ∧
    (∀ ts target payload, formatLine .info ts target payload =
      "[INFO ] " ++ Nat.repr ts ++ " [" ++ target ++ "] " ++ payload) ∧
    (∀ lvl : Level, (padLeftAlign 5 lvl.toDisplay).length = 5) := by
  have hen' : f r.metadata = true := hen
  refine ⟨?_, ?_, ?_⟩
  · cases hlk : fs.lookup p with
    | some old =>
        refine ⟨fs.set p (old ++ formatLine r.level (timestampOf t) r.target r.args),
          ?_, ?_, ?_⟩
        · simp [FileLogger.log, FileLogger.enabled, Filters.is_enabled, hen',
            FileLogger.print, openAppend_of_found fs p old hbad hlk,
            writeRecord, writeHandle_writable, hlk]
        · simp [Fs.lookup_set_self, hlk]
        · intro q hq
          exact Fs.lookup_set_ne fs p q _ hq
    | none =>
        refine ⟨(fs.set p "").set p
          ("" ++ formatLine r.level (timestampOf t) r.target r.args), ?_, ?_, ?_⟩
        · simp [FileLogger.log, FileLogger.enabled, Filters.is_enabled, hen',
            FileLogger.print, openAppend_of_missing fs p hbad hlk,
            writeRecord, writeHandle_writable, Fs.lookup_set_self]
        · rw [Fs.lookup_set_self]
          simp [hlk]
        · intro q hq
          rw [Fs.lookup_set_ne _ _ _ _ hq, Fs.lookup_set_ne _ _ _ _ hq]
  · intro ts target payload
    have hpad : padLeftAlign 5 (Level.toDisplay .info) = "INFO " := rfl
    rw [formatLine, hpad]
    simp only [String.append_assoc]
    rfl
  · intro lvl
    cases lvl <;> rfl

/-- Witness for C1 at the concrete round-trip input of the spec. -/
theorem transient_log_appends_exactly_one_formatted_line_witness :
    (∃ fs', FileLogger.log ⟨.transient "log", fun _ => true⟩ helloRecord
        (some 1234) ⟨[("log", "OLD")], []⟩ = .ok fs' ∧
      fs'.lookup "log" = some ("OLD" ++
        formatLine .info (timestampOf 1234) "app::mod" "hello") ∧
      ∀ q, q ≠ "log" → fs'.lookup q = (Fs.mk [("log", "OLD")] []).lookup q) ∧
    (∀ ts target payload, formatLine .info ts target payload =
      "[INFO ] " ++ Nat.repr ts ++ " [" ++ target ++ "] " ++ payload) ∧
    (∀ lvl : Level, (padLeftAlign 5 lvl.toDisplay).length = 5) :=
  transient_log_appends_exactly_one_formatted_line "log" (fun _ => true)
    helloRecord 1234 ⟨[("log", "OLD")], []⟩ rfl rfl

/-- C5 (counterexample): with a sink already registered and no file at the
chosen path, a second call to the `append` entry point fails with the open
I/O error — not with the already-registered error the claim promises for
every second setup call. -/
theorem second_append_can_fail_with_io_error :
    (append "absent" regWorld).2 = .error (.io .notFound) ∧
    SetupError.io .notFound ≠ SetupError.alreadyRegistered :=
  ⟨rfl, by decide⟩

/-- C5 (amended): a second setup call never replaces the registered sink;
it fails with the already-registered error whenever it reaches registration
(always, for the two transient entry points; when the open succeeds, for
`append`/`truncate`), while an `append`/`truncate` whose open fails returns
that I/O error instead. -/
theorem second_setup_call_keeps_first_sink (p : Path) (w : World)
    (l : FileLogger) (h : w.logger = some l) :
    (append_transient p w).1.logger = some l ∧
    (append_transient p w).2 = .error .alreadyRegistered ∧
    (truncate_transient p w).1.logger = some l ∧
    (truncate_transient p w).2 = .error .alreadyRegistered ∧
    (append p w).1.logger = some l ∧
    (truncate p w).1.logger = some l ∧
    (∀ hd, openRead w.fs p = .ok hd →
      (append p w).2 = .error .alreadyRegistered ∧
      (truncate p w).2 = .error .alreadyRegistered) ∧
    (∀ e, openRead w.fs p = .error e →
      (append p w).2 = .error (.io e) ∧ (truncate p w).2 = .error (.io e)) := by
  obtain ⟨fs, lg, ml, ef⟩ := w
  change lg = some l at h
  subst h
  refine ⟨rfl, rfl, rfl, rfl, ?_, ?_, ?_, ?_⟩
  · cases ho : openRead fs p <;>
      simp [append, ho, init, set_boxed_logger, set_max_level]
  · cases ho : openRead fs p <;>
      simp [truncate, ho, init, set_boxed_logger, set_max_level]
  · intro hd ho
    constructor <;>
      simp [append, truncate, ho, init, set_boxed_logger, set_max_level]
  · intro e ho
    constructor <;> simp [append, truncate, ho]

/-- Witness for the amended C5 in a world with a registered sink. -/
theorem second_setup_call_keeps_first_sink_witness :
    (append_transient "log" regWorld).1.logger =
      some ⟨.transient "x", fun _ => true⟩ ∧
    (append_transient "log" regWorld).2 = .error .alreadyRegistered ∧
    (truncate_transient "log" regWorld).1.logger =
      some ⟨.transient "x", fun _ => true⟩ ∧
    (truncate_transient "log" regWorld).2 = .error .alreadyRegistered ∧
    (append "log" regWorld).1.logger = some ⟨.transient "x", fun _ => true⟩ ∧
    (truncate "log" regWorld).1.logger = some ⟨.transient "x", fun _ => true⟩ ∧
    (∀ hd, openRead regWorld.fs "log" = .ok hd →
      (append "log" regWorld).2 = .error .alreadyRegistered ∧
      (truncate "log" regWorld).2 = .error .alreadyRegistered) ∧
    (∀ e, openRead regWorld.fs "log" = .error e →
      (append "log" regWorld).2 = .error (.io e) ∧
      (truncate "log" regWorld).2 = .error (.io e)) :=
  second_setup_call_keeps_first_sink "log" regWorld
    ⟨.transient "x", fun _ => true⟩ rfl

/-- C7: on a fresh world, `truncate_transient` deletes whatever file was at
the path (silently, even if none was there), registers the transient sink,
and one enabled `log` call then yields a file containing exactly the one
formatted line — the pre-existing content is gone. -/
theorem truncate_transient_then_one_log_writes_exactly_one_line
    (p : Path) (w : World) (r : Record) (t : Nat)
    (hlog : w.logger = none)
    (hbad : w.fs.badPaths.contains p = false)
    (hen : Filters.is_enabled w.envFilters r.metadata = true) :
    (truncate_transient p w).2 = .ok () ∧
    (truncate_transient p w).1.logger = some ⟨.transient p, w.envFilters⟩ ∧
    ∃ fs', FileLogger.log ⟨.transient p, w.envFilters⟩ r (some t)
        (truncate_transient p w).1.fs = .ok fs' ∧
      fs'.lookup p = some (formatLine r.level (timestampOf t) r.target r.args) := by
  obtain ⟨⟨files, bad⟩, lg, ml, ef⟩ := w
  change lg = none at hlog
  subst hlog
  change bad.contains p = false at hbad
  change ef r.metadata = true at hen
  refine ⟨rfl, rfl, ?_⟩
  show ∃ fs', FileLogger.log ⟨.transient p, ef⟩ r (some t)
      (Fs.mk (eraseFile files p) bad) = .ok fs' ∧
    fs'.lookup p = some (formatLine r.level (timestampOf t) r.target r.args)
  have hlkE : (Fs.mk (eraseFile files p) bad).lookup p = none :=
    lookupFile_eraseFile_self files p
  have ho : openAppend (Fs.mk (eraseFile files p) bad) p =
      .ok (⟨p, true⟩, (Fs.mk (eraseFile files p) bad).set p "") :=
    openAppend_of_missing _ p hbad hlkE
  refine ⟨((Fs.mk (eraseFile files p) bad).set p "").set p
      ("" ++ formatLine r.level (timestampOf t) r.target r.args), ?_, ?_⟩
  · simp [FileLogger.log, FileLogger.enabled, Filters.is_enabled, hen,
      FileLogger.print, ho, writeRecord, writeHandle_writable,
      Fs.lookup_set_self]
  · rw [Fs.lookup_set_self]
    rfl

/-- Witness for C7 on a world whose file holds pre-existing content. -/
theorem truncate_transient_then_one_log_writes_exactly_one_line_witness :
    (truncate_transient "log" freshWorld).2 = .ok () ∧
    (truncate_transient "log" freshWorld).1.logger =
      some ⟨.transient "log", freshWorld.envFilters⟩ ∧
    ∃ fs', FileLogger.log ⟨.transient "log", freshWorld.envFilters⟩
        helloRecord (some 1234) (truncate_transient "log" freshWorld).1.fs =
        .ok fs' ∧
      fs'.lookup "log" =
        some (formatLine .info (timestampOf 1234) "app::mod" "hello") :=
  truncate_transient_then_one_log_writes_exactly_one_line "log" freshWorld
    helloRecord 1234 rfl rfl rfl

/-- C8: `flush` is a no-op under the transient strategy, and under the
keep-open strategy it flushes the held handle, discarding the result —
a successful flush yields that flush state, a failed one leaves the
filesystem as it was. -/
theorem flush_noop_for_transient_and_flushes_kept_handle
    (l : FileLogger) (fs : Fs) :
    (∀ p, l.kind = .transient p → l.flush fs = fs) ∧
    (∀ hd, l.kind = .keepOpen hd →
      (∀ fs2, fileFlush fs hd = .ok fs2 → l.flush fs = fs2) ∧
      (∀ e, fileFlush fs hd = .error e → l.flush fs = fs)) := by
  obtain ⟨k, f⟩ := l
  constructor
  · intro p hk
    change k = Kind.transient p at hk
    subst hk
    rfl
  · intro hd hk
    change k = Kind.keepOpen hd at hk
    subst hk
    constructor
    · intro fs2 h2
      simp only [fileFlush, Except.ok.injEq] at h2
      subst h2
      rfl
    · intro e he
      simp only [fileFlush] at he
      cases he


/-- Witness for C8 with a concrete transient sink and a concrete kept-open
sink. -/
theorem flush_noop_for_transient_and_flushes_kept_handle_witness :
    FileLogger.flush ⟨.transient "log", fun _ => true⟩ ⟨[("log", "OLD")], []⟩ =
      ⟨[("log", "OLD")], []⟩ ∧
    FileLogger.flush ⟨.keepOpen ⟨"log", false⟩, fun _ => true⟩
      ⟨[("log", "OLD")], []⟩ = ⟨[("log", "OLD")], []⟩ :=
  ⟨(flush_noop_for_transient_and_flushes_kept_handle
      ⟨.transient "log", fun _ => true⟩ ⟨[("log", "OLD")], []⟩).1 "log" rfl,
   ((flush_noop_for_transient_and_flushes_kept_handle
      ⟨.keepOpen ⟨"log", false⟩, fun _ => true⟩ ⟨[("log", "OLD")], []⟩).2
      ⟨"log", false⟩ rfl).1 ⟨[("log", "OLD")], []⟩ rfl⟩

/-- C9: in a process that already has a registered sink, `truncate_transient`
still deletes the existing file at the path — the deletion happens before
`init` — and then returns the already-registered error, leaving the first
sink in place. -/
theorem truncate_transient_deletes_even_when_already_registered
    (p : Path) (w : World) (l : FileLogger) (h : w.logger = some l) :
    (truncate_transient p w).2 = .error .alreadyRegistered ∧
    (truncate_transient p w).1.logger = some l ∧
    (truncate_transient p w).1.fs = w.fs.erase p ∧
    (truncate_transient p w).1.fs.lookup p = none := by
  obtain ⟨fs, lg, ml, ef⟩ := w
  change lg = some l at h
  subst h
  exact ⟨rfl, rfl, rfl, Fs.lookup_erase_self fs p⟩

/-- Witness for C9: the registered world loses its `log` file anyway. -/
theorem truncate_transient_deletes_even_when_already_registered_witness :
    (truncate_transient "log" regWorld).2 = .error .alreadyRegistered ∧
    (truncate_transient "log" regWorld).1.logger =
      some ⟨.transient "x", fun _ => true⟩ ∧
    (truncate_transient "log" regWorld).1.fs = regWorld.fs.erase "log" ∧
    (truncate_transient "log" regWorld).1.fs.lookup "log" = none :=
  truncate_transient_deletes_even_when_already_registered "log" regWorld
    ⟨.transient "x", fun _ => true⟩ rfl

/-- C10: every setup entry point sets the facade max level to Trace before
attempting registration — unconditionally for the two transient entry
points, and for `append`/`truncate` whenever the call gets as far as the
already-registered failure — so even a failed registration has mutated the
global max level. -/
theorem setup_sets_max_level_to_trace_before_registration
    (p : Path) (w : World) :
    (append_transient p w).1.maxLevel = .trace ∧
    (truncate_transient p w).1.maxLevel = .trace ∧
    ((append p w).2 = .error .alreadyRegistered →
      (append p w).1.maxLevel = .trace) ∧
    ((truncate p w).2 = .error .alreadyRegistered →
      (truncate p w).1.maxLevel = .trace) := by
  obtain ⟨fs, lg, ml, ef⟩ := w
  refine ⟨?_, ?_, ?_, ?_⟩
  · cases lg <;> rfl
  · cases lg <;> rfl
  · cases ho : openRead fs p with
    | error e =>
        intro hc
        simp [append, ho] at hc
    | ok hd =>
        intro _
        cases lg <;>
          simp [append, ho, init, set_boxed_logger, set_max_level]
  · cases ho : openRead fs p with
    | error e =>
        intro hc
        simp [truncate, ho] at hc
    | ok hd =>
        intro _
        cases lg <;>
          simp [truncate, ho, init, set_boxed_logger, set_max_level]

/-- Witness for C10: a failed second registration has still raised the max
level of `regWorld` (whose max level starts at Off) to Trace. -/
theorem setup_sets_max_level_to_trace_before_registration_witness :
    (truncate_transient "log" regWorld).1.maxLevel = .trace ∧
    (append "log" regWorld).1.maxLevel = .trace :=
  ⟨(setup_sets_max_level_to_trace_before_registration "log" regWorld).2.1,
   (setup_sets_max_level_to_trace_before_registration "log" regWorld).2.2.1 rfl⟩

end SimpleFileLogger
